import Mathlib

/-!
Verification development for the property-defs ingestion pipeline
(src/rust/property-defs-rs/src/main.rs).

The pipeline consists of ingestion workers (spawn_producer_loop): each
worker accumulates a local compaction set, flushes it through the shared
filter cache into a bounded handoff channel; a single batch coordinator
(the loop in main) drains the channel into time- and size-bounded batches
and dispatches each batch to an issuance task after acquiring a permit
from a counting semaphore.

The embedding below models:
  - the per-update compaction loop and the flush drain (lines 90-120),
  - the worker channel send with try_send / blocking fallback
    (lines 106-117),
  - the worker fatal behaviour on a queue receive failure (lines 74-78)
    together with the per-task panic containment of tokio,
  - the coordinator inner accumulation loop with the recv / 1-second
    timer race (lines 157-187),
  - the permit pool (Semaphore) and the dispatch of issuance tasks
    (lines 199-209).

Machine times (tokio Instant / Duration) are modelled as absolute
nanosecond counts; the AHashSet compaction set is modelled as a
duplicate-free list in insertion order; the shared quick_cache is
modelled by the list of its resident keys.
-/

namespace PropertyDefs

variable {U : Type}

/-- Ten seconds in nanoseconds: the time trigger of the compaction flush
condition compares last_send.elapsed() against Duration from_secs 10. -/
def tenSecondsNs : Nat := 10000000000

/-- State of one ingestion worker inside spawn_producer_loop.  batch is
the local compaction AHashSet (duplicate-free list, insertion order);
cache is the set of keys resident in the shared filter cache; lastSend is
the instant recorded in last_send; compacted and cacheFiltered mirror the
COMPACTED_UPDATES and UPDATES_FILTERED_BY_CACHE counters; drainLog
records, per flush, the drained compaction set; flushLog records, per
flush, the updates actually forwarded to the handoff channel after the
cache filter; sent is the concatenation of all forwarded updates. -/
structure WorkerState (U : Type) where
  batch : List U
  cache : List U
  lastSend : Nat
  compacted : Nat
  cacheFiltered : Nat
  flushCount : Nat
  drainLog : List (List U)
  flushLog : List (List U)
  sent : List U
deriving DecidableEq

/-- The fresh worker state at worker start time t0 (batch and cache empty,
last_send initialised to now). -/
def initWorker (t0 : Nat) : WorkerState U :=
  ⟨[], [], t0, 0, 0, 0, [], [], []⟩

/-- Result of draining the local compaction set through the shared filter
cache (main.rs lines 100-118): cache is the cache contents afterwards,
emitted the updates forwarded to the channel in drain order, filtered the
number of UPDATES_FILTERED_BY_CACHE increments. -/
structure DrainResult (U : Type) where
  cache : List U
  emitted : List U
  filtered : Nat
deriving DecidableEq

/-- The flush drain loop: for each drained update, a cache hit is counted
and discarded; otherwise the update is inserted into the cache
(optimistic mark-as-seen) and forwarded. -/
def drainFilter [DecidableEq U] (cache : List U) : List U → DrainResult U
  | [] => ⟨cache, [], 0⟩
  | u :: rest =>
    if u ∈ cache then
      let r := drainFilter cache rest
      ⟨r.cache, r.emitted, r.filtered + 1⟩
    else
      let r := drainFilter (u :: cache) rest
      ⟨r.cache, u :: r.emitted, r.filtered⟩

/-- A flush at instant now (main.rs lines 99-119): last_send is reset,
the batch is fully drained through the cache filter, survivors are
forwarded, and the local set is left empty. -/
def flushState [DecidableEq U] (now : Nat) (s : WorkerState U) : WorkerState U :=
  let r := drainFilter s.cache s.batch
  { s with
    batch := []
    cache := r.cache
    lastSend := now
    cacheFiltered := s.cacheFiltered + r.filtered
    flushCount := s.flushCount + 1
    drainLog := s.drainLog ++ [s.batch]
    flushLog := s.flushLog ++ [r.emitted]
    sent := s.sent ++ r.emitted }

/-- One iteration of the per-update loop of spawn_producer_loop (main.rs
lines 90-120) at instant now: a same-cycle duplicate only bumps the
compacted counter and is discarded before insertion; otherwise the update
is inserted and the dual flush condition is checked — the set reached
compactionBatchSize, or strictly more than ten seconds elapsed since
last_send. -/
def processUpdate [DecidableEq U] (compactionBatchSize now : Nat)
    (s : WorkerState U) (u : U) : WorkerState U :=
  if u ∈ s.batch then
    { s with compacted := s.compacted + 1 }
  else
    let s' := { s with batch := s.batch ++ [u] }
    if compactionBatchSize ≤ s'.batch.length ∨ tenSecondsNs < now - s'.lastSend then
      flushState now s'
    else
      s'

/-- Run a worker over a sequence of timed updates: each event (now, u) is
one update processed at instant now. -/
def runWorker [DecidableEq U] (compactionBatchSize : Nat)
    (s : WorkerState U) : List (Nat × U) → WorkerState U
  | [] => s
  | (now, u) :: rest => runWorker compactionBatchSize (processUpdate compactionBatchSize now s u) rest

/-- Every update emitted by a flush drain was absent from the cache it was
checked against (it is inserted into the cache right before being sent). -/
theorem drainFilter_emitted_not_mem [DecidableEq U] (d : List U) :
    ∀ (c : List U) (x : U), x ∈ (drainFilter c d).emitted → x ∉ c := by
  induction d with
  | nil => intro c x hx; simp [drainFilter] at hx
  | cons v rest ih =>
    intro c x hx
    by_cases hv : v ∈ c
    · simp only [drainFilter, if_pos hv] at hx
      exact ih c x hx
    · simp only [drainFilter, if_neg hv] at hx
      rcases List.mem_cons.mp hx with rfl | hx'
      · exact hv
      · intro hxc
        exact ih (v :: c) x hx' (List.mem_cons_of_mem _ hxc)

/-- The updates emitted by one flush drain are pairwise distinct: each
emitted update is cached immediately, so a second drained occurrence
would be filtered. -/
theorem drainFilter_emitted_nodup [DecidableEq U] (d : List U) :
    ∀ c : List U, (drainFilter c d).emitted.Nodup := by
  induction d with
  | nil => intro c; simp [drainFilter]
  | cons v rest ih =>
    intro c
    by_cases hv : v ∈ c
    · simp only [drainFilter, if_pos hv]
      exact ih c
    · simp only [drainFilter, if_neg hv]
      refine List.nodup_cons.mpr ⟨?_, ih (v :: c)⟩
      intro hmem
      exact drainFilter_emitted_not_mem rest (v :: c) v hmem (List.mem_cons_self v c)

/-- Claim C2: once an update is resident in the shared filter cache, any
occurrence of it reaching the flush drain of a worker (while still resident)
is not forwarded to the handoff channel, a drained occurrence strictly
increases the cache-filtered counter, and every drained update is either
forwarded or counted as cache-filtered (none is lost untracked). -/
theorem cache_suppression [DecidableEq U] (d : List U) :
    ∀ (c : List U) (u : U), u ∈ c →
      u ∉ (drainFilter c d).emitted
      ∧ (u ∈ d → 0 < (drainFilter c d).filtered)
      ∧ (drainFilter c d).filtered + (drainFilter c d).emitted.length = d.length := by
  induction d with
  | nil =>
    intro c u hu
    simp [drainFilter]
  | cons v rest ih =>
    intro c u hu
    by_cases hv : v ∈ c
    · obtain ⟨h1, h2, h3⟩ := ih c u hu
      simp only [drainFilter, if_pos hv]
      refine ⟨h1, fun _ => Nat.succ_pos _, ?_⟩
      simp only [List.length_cons]
      omega
    · have hu' : u ∈ v :: c := List.mem_cons_of_mem _ hu
      obtain ⟨h1, h2, h3⟩ := ih (v :: c) u hu'
      have hne : u ≠ v := fun h => hv (h ▸ hu)
      simp only [drainFilter, if_neg hv]
      refine ⟨?_, ?_, ?_⟩
      · intro hmem
        rcases List.mem_cons.mp hmem with h | h
        · exact hne h
        · exact h1 h
      · intro hmem
        rcases List.mem_cons.mp hmem with h | h
        · exact absurd h hne
        · exact h2 h
      · simp only [List.length_cons]
        omega

/-- Witness for C2: with update 7 already cached, draining the set
containing 7 and 8 forwards only 8 and counts one cache hit. -/
theorem cache_suppression_witness :
    ((7 : Nat) ∈ [7])
    ∧ (7 ∉ (drainFilter [(7 : Nat)] [7, 8]).emitted
       ∧ ((7 : Nat) ∈ [7, 8] → 0 < (drainFilter [(7 : Nat)] [7, 8]).filtered)
       ∧ (drainFilter [(7 : Nat)] [7, 8]).filtered
          + (drainFilter [(7 : Nat)] [7, 8]).emitted.length = [(7 : Nat), 8].length) :=
  ⟨by decide, cache_suppression [7, 8] [7] 7 (by decide)⟩

/-- Well-formedness of a worker state: the compaction set holds no
duplicates and neither does any recorded drained or forwarded flush. -/
def WorkerWF (s : WorkerState U) : Prop :=
  s.batch.Nodup ∧ (∀ l ∈ s.drainLog, l.Nodup) ∧ (∀ l ∈ s.flushLog, l.Nodup)

/-- Processing one update preserves worker well-formedness. -/
theorem processUpdate_wf [DecidableEq U] (B now : Nat) (s : WorkerState U) (u : U)
    (h : WorkerWF s) : WorkerWF (processUpdate B now s u) := by
  obtain ⟨hb, hd, hf⟩ := h
  by_cases hu : u ∈ s.batch
  · simpa [processUpdate, if_pos hu, WorkerWF] using ⟨hb, hd, hf⟩
  · have hb' : (s.batch ++ [u]).Nodup := by
      simp [List.nodup_append, hb, hu]
    simp only [processUpdate, if_neg hu]
    split
    · refine ⟨by simp [flushState], ?_, ?_⟩
      · intro l hl
        simp only [flushState, List.mem_append, List.mem_singleton] at hl
        rcases hl with hl | hl
        · exact hd l hl
        · exact hl ▸ hb'
      · intro l hl
        simp only [flushState, List.mem_append, List.mem_singleton] at hl
        rcases hl with hl | hl
        · exact hf l hl
        · exact hl ▸ drainFilter_emitted_nodup _ _
    · exact ⟨hb', hd, hf⟩

/-- Running a worker over any event sequence preserves well-formedness. -/
theorem runWorker_wf [DecidableEq U] (B : Nat) (events : List (Nat × U)) :
    ∀ s : WorkerState U, WorkerWF s → WorkerWF (runWorker B s events) := by
  induction events with
  | nil => intro s h; exact h
  | cons e rest ih =>
    intro s h
    obtain ⟨now, u⟩ := e
    exact ih _ (processUpdate_wf B now s u h)

/-- Claim C3: over any input sequence fed to one worker, no two updates
equal under identity are forwarded from the same flush, and each drained
compaction set contains each identity at most once, regardless of input
order (same-cycle duplicates are discarded before insertion). -/
theorem compaction_no_duplicates [DecidableEq U] (B t0 : Nat) (events : List (Nat × U))
    (l : List U)
    (hl : l ∈ (runWorker B (initWorker t0) events).flushLog
        ∨ l ∈ (runWorker B (initWorker t0) events).drainLog) :
    l.Nodup := by
  obtain ⟨hb, hd, hf⟩ :=
    runWorker_wf B events (initWorker t0) (by simp [WorkerWF, initWorker])
  rcases hl with h | h
  · exact hf l h
  · exact hd l h

/-- Witness for C3: a worker with compaction batch size 1 fed one update
flushes it; the forwarded flush is duplicate-free. -/
theorem compaction_no_duplicates_witness :
    ([0] ∈ (runWorker 1 (initWorker 0) [((0 : Nat), (0 : Nat))]).flushLog)
    ∧ List.Nodup [(0 : Nat)] :=
  ⟨by decide, compaction_no_duplicates 1 0 [((0 : Nat), (0 : Nat))] [0] (Or.inl (by decide))⟩

/-- Counterexample to Claim C4 as stated: a worker (compaction batch size
10) that inserted update 0 at instant 0 and then processes a duplicate
occurrence of it at instant 20 s holds fewer than 10 distinct updates
with at least (indeed more than) ten seconds elapsed since the last
flush, yet no flush has occurred: the flush condition is only evaluated
after a new update is inserted, and a same-cycle duplicate is discarded
before that check. -/
theorem time_trigger_cex :
    (runWorker 10 (initWorker 0) [((0 : Nat), (0 : Nat)), (20000000000, 0)]).flushCount = 0
    ∧ (runWorker 10 (initWorker 0) [((0 : Nat), (0 : Nat)), (20000000000, 0)]).batch.length < 10
    ∧ tenSecondsNs
      ≤ 20000000000
        - (runWorker 10 (initWorker 0) [((0 : Nat), (0 : Nat)), (20000000000, 0)]).lastSend := by
  decide

/-- Claim C4 (amended): when a worker inserts a not-yet-present update at
an instant strictly more than ten seconds after the last flush, a flush
occurs immediately, draining exactly the accumulated compaction set
(including the newly inserted update) and leaving the set empty; elapsed
time alone, without such an insertion, does not trigger a flush. -/
theorem time_trigger_flush_on_insert [DecidableEq U] (B now : Nat) (s : WorkerState U) (u : U)
    (hnew : u ∉ s.batch) (htime : tenSecondsNs < now - s.lastSend) :
    (processUpdate B now s u).drainLog = s.drainLog ++ [s.batch ++ [u]]
    ∧ (processUpdate B now s u).batch = []
    ∧ (processUpdate B now s u).flushCount = s.flushCount + 1 := by
  simp only [processUpdate, if_neg hnew]
  split
  · simp [flushState]
  · rename_i hcond
    exact absurd (Or.inr htime) hcond

/-- Witness for the amended C4: a worker holding update 5 since instant 0
that inserts fresh update 7 at instant 20 s flushes at once, draining
exactly both updates. -/
theorem time_trigger_flush_on_insert_witness :
    ((7 : Nat) ∉ [5]) ∧ tenSecondsNs < 20000000000 - 0
    ∧ (processUpdate 10 20000000000 (⟨[5], [], 0, 0, 0, 0, [], [], []⟩ : WorkerState Nat)
        7).drainLog = [[5, 7]]
    ∧ (processUpdate 10 20000000000 (⟨[5], [], 0, 0, 0, 0, [], [], []⟩ : WorkerState Nat)
        7).batch = []
    ∧ (processUpdate 10 20000000000 (⟨[5], [], 0, 0, 0, 0, [], [], []⟩ : WorkerState Nat)
        7).flushCount = 1 := by
  have h := time_trigger_flush_on_insert 10 20000000000
    (⟨[5], [], 0, 0, 0, 0, [], [], []⟩ : WorkerState Nat) 7 (by decide) (by decide)
  exact ⟨by decide, by decide, by simpa using h.1, h.2.1, by simpa using h.2.2⟩

/-- Feeding a worker a sequence of fresh distinct updates that exactly
fills the remaining compaction capacity (all within the ten-second
window) produces exactly one flush, draining the whole accumulated set. -/
theorem run_distinct_inserts [DecidableEq U] (B : Nat) :
    ∀ (events : List (Nat × U)) (s : WorkerState U) (l : List U),
      events.map Prod.snd = l →
      (s.batch ++ l).Nodup →
      s.batch.length + l.length = B →
      l ≠ [] →
      (∀ e ∈ events, e.1 - s.lastSend ≤ tenSecondsNs) →
      (runWorker B s events).flushCount = s.flushCount + 1
      ∧ (runWorker B s events).drainLog = s.drainLog ++ [s.batch ++ l]
      ∧ (runWorker B s events).batch = [] := by
  intro events
  induction events with
  | nil =>
    intro s l hmap hnd hlen hne htimes
    exact absurd hmap.symm hne
  | cons e rest ih =>
    intro s l hmap hnd hlen hne htimes
    obtain ⟨t, u⟩ := e
    subst hmap
    have hu : u ∉ s.batch := by
      obtain ⟨h1, h2, hdisj⟩ := List.nodup_append.mp hnd
      exact fun hmem => hdisj hmem (List.mem_cons_self _ _)
    have htime : ¬ tenSecondsNs < t - s.lastSend := by
      have := htimes (t, u) (List.mem_cons_self _ _)
      omega
    cases rest with
    | nil =>
      have hful : B ≤ (s.batch ++ [u]).length := by
        simp only [List.map_cons, List.map_nil, List.length_cons, List.length_nil] at hlen
        simp only [List.length_append, List.length_singleton]
        omega
      have hflush : processUpdate B t s u = flushState t { s with batch := s.batch ++ [u] } := by
        simp only [processUpdate, if_neg hu]
        split
        · rfl
        · rename_i hcond
          exact absurd (Or.inl hful) hcond
      simp only [runWorker, hflush]
      simp [flushState]
    | cons r rs =>
      have hlen2 : s.batch.length + 1 + ((r :: rs).map Prod.snd).length = B := by
        simp only [List.map_cons, List.length_cons] at hlen ⊢
        omega
      have hnotful : ¬ B ≤ s.batch.length + 1 := by
        simp only [List.map_cons, List.length_cons] at hlen2
        omega
      have hstep : processUpdate B t s u = { s with batch := s.batch ++ [u] } := by
        simp only [processUpdate, if_neg hu]
        split
        · rename_i hcond
          rcases hcond with hcond | hcond
          · exfalso
            apply hnotful
            simpa using hcond
          · exact absurd hcond htime
        · rfl
      have hrun : runWorker B s ((t, u) :: r :: rs)
          = runWorker B { s with batch := s.batch ++ [u] } (r :: rs) := by
        simp only [runWorker]
        rw [hstep]
      rw [hrun]
      obtain ⟨ih1, ih2, ih3⟩ := ih { s with batch := s.batch ++ [u] } ((r :: rs).map Prod.snd)
        rfl
        (by simpa using hnd)
        (by simpa using hlen2)
        (by simp)
        (by intro e he; simpa using htimes e (List.mem_cons_of_mem _ he))
      refine ⟨by simpa using ih1, ?_, ih3⟩
      rw [ih2]
      simp

/-- Counterexample to Claim C5 as stated: with compaction batch size
B = 0, inserting the B distinct updates (none) into a fresh compaction
set triggers no flush at all, not exactly one. -/
theorem size_trigger_cex :
    (runWorker 0 (initWorker 0) ([] : List (Nat × Nat))).flushCount = 0
    ∧ ¬ (runWorker 0 (initWorker 0) ([] : List (Nat × Nat))).flushCount = 1 := by
  decide

/-- Claim C5 (amended, restricted to a positive batch size): for
compaction batch size B with 1 ≤ B, feeding B distinct updates into a
fresh worker within the ten-second window triggers exactly one flush,
and that flush drains exactly those B updates. -/
theorem size_trigger_exact_flush [DecidableEq U] (B t0 : Nat) (events : List (Nat × U))
    (l : List U)
    (hmap : events.map Prod.snd = l) (hnd : l.Nodup) (hlen : l.length = B) (hB : 1 ≤ B)
    (htimes : ∀ e ∈ events, e.1 - t0 ≤ tenSecondsNs) :
    (runWorker B (initWorker t0) events).flushCount = 1
    ∧ (runWorker B (initWorker t0) events).drainLog = [l]
    ∧ (runWorker B (initWorker t0) events).batch = [] := by
  have hne : l ≠ [] := by
    intro h
    subst h
    simp at hlen
    omega
  have h := run_distinct_inserts B events (initWorker t0) l hmap
    (by simpa [initWorker] using hnd)
    (by simp [initWorker, hlen])
    hne
    (by simpa [initWorker] using htimes)
  simpa [initWorker] using h

/-- Witness for the amended C5: batch size 2, two distinct updates fed at
instants 0 and 5 ns — exactly one flush draining both. -/
theorem size_trigger_exact_flush_witness :
    (runWorker 2 (initWorker 0) [((0 : Nat), (3 : Nat)), (5, 4)]).flushCount = 1
    ∧ (runWorker 2 (initWorker 0) [((0 : Nat), (3 : Nat)), (5, 4)]).drainLog = [[3, 4]]
    ∧ (runWorker 2 (initWorker 0) [((0 : Nat), (3 : Nat)), (5, 4)]).batch = [] :=
  size_trigger_exact_flush 2 0 [((0 : Nat), (3 : Nat)), (5, 4)] [3, 4]
    (by decide) (by decide) (by decide) (by decide) (by decide)

/-! ## Handoff channel: try_send with blocking fallback (main.rs 106-117) -/

/-- The bounded mpsc handoff channel as seen from a sender: its fixed
capacity, the buffered updates, and whether the receive side has been
dropped. -/
structure Channel (U : Type) where
  capacity : Nat
  queue : List U
  closed : Bool
deriving DecidableEq

/-- The two failure cases of a non-blocking mpsc try_send. -/
inductive TrySendFailure
  | full
  | closedChannel
deriving DecidableEq

/-- tokio mpsc try_send: fails with Closed when the receiver is gone,
with Full when the buffer is at capacity, and otherwise enqueues. -/
def tryChannelSend (ch : Channel U) (u : U) : Except TrySendFailure (Channel U) :=
  if ch.closed then .error .closedChannel
  else if ch.capacity ≤ ch.queue.length then .error .full
  else .ok { ch with queue := ch.queue ++ [u] }

/-- A blocking mpsc send on an open channel: the sender suspends until the
coordinator has made room, then the update is enqueued; the update is
never dropped. -/
def blockingSend (ch : Channel U) (u : U) : Channel U :=
  { ch with queue := ch.queue ++ [u] }

/-- How one worker send ended. -/
inductive SendOutcome
  | sent
  | sentAfterBlock
  | fatalClosed
deriving DecidableEq

/-- The per-update send of a worker during a flush (main.rs lines 106-117):
try_send first; on Full, record WORKER_BLOCKED (the returned Nat) and
fall back to the blocking send of the same update; on any other error
(closed channel) the worker returns, a fatal condition. -/
def workerSend (ch : Channel U) (u : U) : Channel U × SendOutcome × Nat :=
  match tryChannelSend ch u with
  | .ok ch' => (ch', .sent, 0)
  | .error .full => (blockingSend ch u, .sentAfterBlock, 1)
  | .error .closedChannel => (ch, .fatalClosed, 0)

/-- Claim C7: on an open channel the worker send always delivers the
update (it is appended, never dropped) and is never treated as fatal;
the WORKER_BLOCKED counter fires exactly when the channel is full, which
is also exactly when the blocking fallback path is taken. -/
theorem channel_full_backpressure (ch : Channel U) (u : U) (hopen : ch.closed = false) :
    (workerSend ch u).1.queue = ch.queue ++ [u]
    ∧ (workerSend ch u).2.1 ≠ SendOutcome.fatalClosed
    ∧ ((workerSend ch u).2.2 = 1 ↔ ch.capacity ≤ ch.queue.length)
    ∧ ((workerSend ch u).2.1 = SendOutcome.sentAfterBlock ↔ ch.capacity ≤ ch.queue.length) := by
  by_cases hful : ch.capacity ≤ ch.queue.length
  · simp [workerSend, tryChannelSend, blockingSend, hopen, hful]
  · simp [workerSend, tryChannelSend, hopen, hful]

/-- Witness for C7: a full open channel of capacity 1 — the send blocks
(counter 1), the update is enqueued behind the buffered one. -/
theorem channel_full_backpressure_witness :
    (workerSend (⟨1, [5], false⟩ : Channel Nat) 7).1.queue = [5] ++ [7]
    ∧ (workerSend (⟨1, [5], false⟩ : Channel Nat) 7).2.1 ≠ SendOutcome.fatalClosed
    ∧ ((workerSend (⟨1, [5], false⟩ : Channel Nat) 7).2.2 = 1
       ↔ (1 : Nat) ≤ [(5 : Nat)].length)
    ∧ ((workerSend (⟨1, [5], false⟩ : Channel Nat) 7).2.1 = SendOutcome.sentAfterBlock
       ↔ (1 : Nat) ≤ [(5 : Nat)].length) :=
  channel_full_backpressure (⟨1, [5], false⟩ : Channel Nat) 7 rfl

/-! ## Batch coordinator inner loop (main.rs 157-187) -/

/-- The two possible winners of the select race inside the coordinator
accumulation loop: recv_many completed returning some items (an empty
list models got == 0, the closed channel), or the one-second sleep fired
with the given total elapsed time (nanoseconds) since batch start. -/
inductive CoordEvent (U : Type)
  | recv (items : List U)
  | tick (elapsed : Nat)
deriving DecidableEq

/-- Coordinator accumulation state: the batch being assembled and the
FORCED_SMALL_BATCH counter. -/
structure CoordState (U : Type) where
  batch : List U
  forcedSmallBatch : Nat
deriving DecidableEq

/-- How one pass of the coordinator inner accumulation loop ended:
still accumulating when the scripted events ran out, fatal exit on a
zero-item receive (return from main, ending the process), or a batch
dispatched (forced = true when the time limit broke the loop early). -/
inductive CoordOutcome (U : Type)
  | pending (s : CoordState U)
  | fatalExit (s : CoordState U)
  | dispatched (s : CoordState U) (forced : Bool)
deriving DecidableEq

/-- The coordinator inner accumulation loop (main.rs lines 162-187),
driven by a script of select outcomes.  While the batch is under the
target size: a receive of zero items is fatal; received items are
appended (recv_many never returns more than the remaining capacity,
hence the take); a timer tick whose elapsed time strictly exceeds the
max issue period forces a small batch (counter incremented, loop broken);
an earlier tick merely re-enters the loop, discarding nothing. -/
def coordLoop (N periodNs : Nat) : CoordState U → List (CoordEvent U) → CoordOutcome U
  | s, [] =>
    if N ≤ s.batch.length then .dispatched s false else .pending s
  | s, .recv items :: rest =>
    if N ≤ s.batch.length then .dispatched s false
    else if items.length = 0 then .fatalExit s
    else coordLoop N periodNs
      { s with batch := s.batch ++ items.take (N - s.batch.length) } rest
  | s, .tick elapsed :: rest =>
    if N ≤ s.batch.length then .dispatched s false
    else if periodNs < elapsed then
      .dispatched { s with forcedSmallBatch := s.forcedSmallBatch + 1 } true
    else coordLoop N periodNs s rest

/-- All updates carried by the receive events of a script. -/
def receivedOf : List (CoordEvent U) → List U
  | [] => []
  | .recv items :: rest => items ++ receivedOf rest
  | .tick _ :: rest => receivedOf rest

/-- An event of an under-full accumulation phase: a nonempty receive, or
a tick that has not yet exceeded the issue period. -/
def goodEvent (periodNs : Nat) : CoordEvent U → Bool
  | .recv items => items.length != 0
  | .tick elapsed => elapsed ≤ periodNs

/-- Accumulation lemma: starting under capacity, a script of nonempty
receives totalling fewer than the missing items and of non-expired
ticks, closed by one expired tick, ends in a forced dispatch whose batch
is the start batch plus exactly the received items, with the forced
counter incremented once. -/
theorem coordLoop_accum (N periodNs finalElapsed : Nat)
    (hfin : periodNs < finalElapsed) :
    ∀ (es : List (CoordEvent U)) (s : CoordState U),
      (∀ ev ∈ es, goodEvent periodNs ev = true) →
      s.batch.length + (receivedOf es).length < N →
      coordLoop N periodNs s (es ++ [CoordEvent.tick finalElapsed])
        = CoordOutcome.dispatched
            ⟨s.batch ++ receivedOf es, s.forcedSmallBatch + 1⟩ true := by
  intro es
  induction es with
  | nil =>
    intro s hgood hsize
    simp only [receivedOf, List.length_nil, Nat.add_zero] at hsize
    simp only [List.nil_append, coordLoop, if_neg (Nat.not_le.mpr hsize), if_pos hfin,
      receivedOf]
    simp
  | cons ev rest ih =>
    intro s hgood hsize
    cases ev with
    | recv items =>
      have hne : items.length ≠ 0 := by
        have := hgood _ (List.mem_cons_self _ _)
        simpa [goodEvent] using this
      have hrec : s.batch.length + (items.length + (receivedOf rest).length) < N := by
        simpa [receivedOf] using hsize
      have hlt : s.batch.length < N := by omega
      have htake : items.take (N - s.batch.length) = items :=
        List.take_of_length_le (by omega)
      simp only [List.cons_append, coordLoop, if_neg (Nat.not_le.mpr hlt), if_neg hne,
        htake]
      have := ih { s with batch := s.batch ++ items }
        (fun e he => hgood e (List.mem_cons_of_mem _ he))
        (by simp only [List.length_append]; omega)
      simp only [List.append_eq]
      rw [this]
      simp [receivedOf]
    | tick elapsed =>
      have hle : elapsed ≤ periodNs := by
        have := hgood _ (List.mem_cons_self _ _)
        simpa [goodEvent] using this
      have hrec : s.batch.length + (receivedOf rest).length < N := by
        simpa [receivedOf] using hsize
      have hlt : s.batch.length < N := by omega
      simp only [List.cons_append, coordLoop, if_neg (Nat.not_le.mpr hlt),
        if_neg (Nat.not_lt.mpr hle)]
      have := ih s (fun e he => hgood e (List.mem_cons_of_mem _ he)) hrec
      simp only [List.append_eq]
      rw [this]
      simp [receivedOf]

/-- Claim C6: when fewer than the target N updates arrive before the max
issue period expires (nonempty receives interleaved with in-period
ticks, then a tick past the period), the coordinator dispatches a forced
batch containing exactly the updates accumulated so far, of size under
N, and the FORCED_SMALL_BATCH counter increments by exactly one; the
in-period ticks discard none of the already-received data. -/
theorem forced_small_batch_exact (N periodNs finalElapsed : Nat)
    (s : CoordState U) (es : List (CoordEvent U))
    (hfin : periodNs < finalElapsed)
    (hgood : ∀ ev ∈ es, goodEvent periodNs ev = true)
    (hsize : s.batch.length + (receivedOf es).length < N) :
    coordLoop N periodNs s (es ++ [CoordEvent.tick finalElapsed])
      = CoordOutcome.dispatched
          ⟨s.batch ++ receivedOf es, s.forcedSmallBatch + 1⟩ true
    ∧ (s.batch ++ receivedOf es).length < N := by
  refine ⟨coordLoop_accum N periodNs finalElapsed hfin es s hgood hsize, ?_⟩
  simp only [List.length_append]
  omega

/-- Witness for C6: target 5, period 5 s; two updates arrive, one benign
tick, then a tick at 6 s forces the batch of those two updates. -/
theorem forced_small_batch_exact_witness :
    coordLoop 5 5000000000 (⟨[], 0⟩ : CoordState Nat)
        ([CoordEvent.recv [1, 2], CoordEvent.tick 1000000000]
          ++ [CoordEvent.tick 6000000000])
      = CoordOutcome.dispatched ⟨[1, 2], 1⟩ true
    ∧ ([(1 : Nat), 2]).length < 5 := by
  have h := forced_small_batch_exact 5 5000000000 6000000000 (⟨[], 0⟩ : CoordState Nat)
    [CoordEvent.recv [1, 2], CoordEvent.tick 1000000000]
    (by decide) (by decide) (by decide)
  simpa [receivedOf] using h

/-- Claim C8: while the batch is still under the target size, a receive
that yields zero items (the handoff channel is exhausted and closed) is
treated as fatal: the coordinator leaves its loop at once — in main.rs
this is the return from main, ending the process — regardless of any
further scripted events. -/
theorem recv_zero_fatal (N periodNs : Nat) (s : CoordState U)
    (rest : List (CoordEvent U)) (hunder : s.batch.length < N) :
    coordLoop N periodNs s (CoordEvent.recv [] :: rest) = CoordOutcome.fatalExit s := by
  simp [coordLoop, Nat.not_le.mpr hunder]

/-- Witness for C8: the channel-closed condition reached from the initial
empty batch terminates the coordinator loop. -/
theorem recv_zero_fatal_witness :
    coordLoop 100 5000000000 (⟨[], 0⟩ : CoordState Nat) [CoordEvent.recv []]
      = CoordOutcome.fatalExit ⟨[], 0⟩ :=
  recv_zero_fatal 100 5000000000 ⟨[], 0⟩ [] (by decide)

/-! ## Concurrency limiter (Semaphore, main.rs 144 and 199-209) -/

/-- State of the transaction-limit semaphore together with the issuance
tasks currently running: available counts free permits, running counts
spawned issuance tasks still holding their permit. -/
structure LimiterState where
  available : Nat
  running : Nat
deriving DecidableEq

/-- The semaphore as created in main: all M permits free, nothing
running. -/
def limiterInit (M : Nat) : LimiterState :=
  ⟨M, 0⟩

/-- The two transitions touching the permit pool: the coordinator
acquires one permit — it blocks until one is available, so the step
requires a free permit — and spawns an issuance task that owns it; a
running issuance task finishes (by success or failure) and its permit is
released exactly once. -/
inductive LimiterStep : LimiterState → LimiterState → Prop
  | dispatch (s : LimiterState) (h : 1 ≤ s.available) :
      LimiterStep s ⟨s.available - 1, s.running + 1⟩
  | complete (s : LimiterState) (h : 1 ≤ s.running) :
      LimiterStep s ⟨s.available + 1, s.running - 1⟩

/-- States of the permit pool reachable from the fresh semaphore. -/
inductive LimiterReachable (M : Nat) : LimiterState → Prop
  | init : LimiterReachable M (limiterInit M)
  | step (s s' : LimiterState) :
      LimiterReachable M s → LimiterStep s s' → LimiterReachable M s'

/-- Permit conservation: free permits plus running issuance tasks always
total M. -/
theorem limiter_conservation (M : Nat) (s : LimiterState)
    (h : LimiterReachable M s) : s.available + s.running = M := by
  induction h with
  | init => simp [limiterInit]
  | step s s' hr hstep ih =>
    cases hstep with
    | dispatch hp => simp only at ih ⊢; omega
    | complete hp => simp only at ih ⊢; omega

/-- Claim C1: with the limiter configured for M permits, no reachable
state of the permit pool has more than M issuance tasks running
concurrently: the coordinator blocks to acquire a permit before each
spawn and every task holds its permit for its whole lifetime. -/
theorem concurrency_ceiling (M : Nat) (s : LimiterState)
    (h : LimiterReachable M s) : s.running ≤ M := by
  have := limiter_conservation M s h
  omega

/-- Witness for C1 at M = 3, evaluated at the initial pool state. -/
theorem concurrency_ceiling_witness : (limiterInit 3).running ≤ 3 :=
  concurrency_ceiling 3 (limiterInit 3) LimiterReachable.init

/-- An issuance task as spawned by the coordinator: it owns the whole
dispatched batch (handed to context.issue). -/
structure IssuanceTask (U : Type) where
  batch : List U
deriving DecidableEq

/-- The coordinator dispatch step after the batch is complete
(main.rs lines 199-209): one permit is acquired from the pool and an
issuance task owning the permit and the batch is spawned.  Meaningful
exactly when a permit is free, which is the dispatch transition of
LimiterStep. -/
def dispatchBatch (lim : LimiterState) (batch : List U) : LimiterState × IssuanceTask U :=
  (⟨lim.available - 1, lim.running + 1⟩, ⟨batch⟩)

/-- A script made only of timer ticks carries no received updates. -/
theorem receivedOf_map_tick (ts : List Nat) :
    receivedOf (ts.map (CoordEvent.tick (U := U))) = [] := by
  induction ts with
  | nil => simp [receivedOf]
  | cons t rest ih => simpa [receivedOf] using ih

/-- Claim C10: under zero traffic — the select race is won only by timer
ticks, the last one past the max issue period — the coordinator breaks
out with an empty forced batch (counter incremented), performs a genuine
permit-consuming dispatch step, and the spawned issuance task invokes
the issuance collaborator with an empty batch.  The forced counter f and
the pool state are arbitrary, so this repeats every such iteration. -/
theorem zero_traffic_empty_issuance (N periodNs finalElapsed f : Nat)
    (ticks : List Nat) (lim : LimiterState)
    (hN : 0 < N) (hticks : ∀ t ∈ ticks, t ≤ periodNs)
    (hfin : periodNs < finalElapsed) (hperm : 1 ≤ lim.available) :
    coordLoop N periodNs (⟨[], f⟩ : CoordState U)
        (ticks.map CoordEvent.tick ++ [CoordEvent.tick finalElapsed])
      = CoordOutcome.dispatched ⟨[], f + 1⟩ true
    ∧ LimiterStep lim ⟨lim.available - 1, lim.running + 1⟩
    ∧ (dispatchBatch lim ([] : List U)).2.batch = []
    ∧ (dispatchBatch lim ([] : List U)).1.available = lim.available - 1 := by
  have hrec : receivedOf (ticks.map (CoordEvent.tick (U := U))) = [] :=
    receivedOf_map_tick ticks
  have hgood : ∀ ev ∈ ticks.map (CoordEvent.tick (U := U)), goodEvent periodNs ev = true := by
    intro ev hev
    obtain ⟨t, ht, rfl⟩ := List.mem_map.mp hev
    simpa [goodEvent] using hticks t ht
  have h := coordLoop_accum N periodNs finalElapsed hfin
    (ticks.map CoordEvent.tick) (⟨[], f⟩ : CoordState U) hgood
    (by simp [hrec, hN])
  refine ⟨?_, LimiterStep.dispatch lim hperm, rfl, rfl⟩
  simpa [hrec] using h

/-- Witness for C10: target 5, period 2 s, one benign tick then a tick at
3 s, pool of 4 free permits: the empty batch is force-dispatched and the
spawned issuance task carries the empty batch. -/
theorem zero_traffic_empty_issuance_witness :
    coordLoop 5 2000000000 (⟨[], 0⟩ : CoordState Nat)
        ([1000000000].map CoordEvent.tick ++ [CoordEvent.tick 3000000000])
      = CoordOutcome.dispatched ⟨[], 1⟩ true
    ∧ LimiterStep ⟨4, 0⟩ ⟨3, 1⟩
    ∧ (dispatchBatch ⟨4, 0⟩ ([] : List Nat)).2.batch = []
    ∧ (dispatchBatch ⟨4, 0⟩ ([] : List Nat)).1.available = 3 := by
  have h := zero_traffic_empty_issuance (U := Nat) 5 2000000000 3000000000 0
    [1000000000] ⟨4, 0⟩ (by decide) (by decide) (by decide) (by decide)
  exact ⟨h.1, h.2.1, h.2.2.1, h.2.2.2⟩

/-! ## Worker task failure containment (main.rs 74-78 and 147-155) -/

/-- What one pass of the outer receive loop of a worker yielded: a queue
receive failure, a message that did not parse into a usable event
(silently skipped), or a parsed event expanded into updates at a given
instant. -/
inductive RecvOutcome (U : Type)
  | failed
  | skipped
  | event (now : Nat) (updates : List U)

/-- Whether a spawned worker task is still running.  A worker that hit
the expect on a failed queue receive has panicked; tokio contains the
panic to that task, which never runs again. -/
inductive WorkerStatus
  | alive
  | dead
deriving DecidableEq

/-- One spawned worker task: its liveness and its compaction state. -/
structure Worker (U : Type) where
  status : WorkerStatus
  state : WorkerState U
deriving DecidableEq

/-- Process every update of one consumed message. -/
def processUpdates [DecidableEq U] (B now : Nat) (s : WorkerState U)
    (updates : List U) : WorkerState U :=
  updates.foldl (processUpdate B now) s

/-- One pass of the outer loop of a worker (main.rs lines 74-121): a receive
failure panics the task (it dies); an unparseable message is skipped; a
updates of a parsed event are run through the compaction loop.  A dead
task does nothing. -/
def workerStep [DecidableEq U] (B : Nat) (w : Worker U) (r : RecvOutcome U) : Worker U :=
  match w.status with
  | .dead => w
  | .alive =>
    match r with
    | .failed => { w with status := .dead }
    | .skipped => w
    | .event now updates => { w with state := processUpdates B now w.state updates }

/-- The pool of worker tasks spawned in main (lines 147-155): stepping
worker i touches only worker i — the tasks share no mutable state. -/
def systemStep [DecidableEq U] (B : Nat) {n : Nat} (ws : Fin n → Worker U)
    (i : Fin n) (r : RecvOutcome U) : Fin n → Worker U :=
  fun j => if j = i then workerStep B (ws i) r else ws j

/-- Claim C9: a queue receive failure kills the affected worker — it
never skips the failure and keeps consuming: every later receive
outcome leaves it unchanged — while any other worker of the pool is
untouched by that step. -/
theorem worker_failure_isolated [DecidableEq U] (B : Nat) {n : Nat}
    (ws : Fin n → Worker U) (i j : Fin n) (r : RecvOutcome U)
    (halive : (ws i).status = WorkerStatus.alive) (hne : j ≠ i) :
    ((systemStep B ws i RecvOutcome.failed) i).status = WorkerStatus.dead
    ∧ (systemStep B ws i RecvOutcome.failed) j = ws j
    ∧ workerStep B ((systemStep B ws i RecvOutcome.failed) i) r
        = (systemStep B ws i RecvOutcome.failed) i := by
  have hi : (systemStep B ws i RecvOutcome.failed) i
      = { ws i with status := WorkerStatus.dead } := by
    simp only [systemStep, if_pos rfl, workerStep, halive]
    cases hw : (ws i).status with
    | alive => rfl
    | dead => rw [hw] at halive; exact absurd halive (by simp)
  refine ⟨by rw [hi], by simp [systemStep, hne], ?_⟩
  rw [hi]
  rfl

/-- Witness for C9: two workers, worker 0 hits a receive failure — it is
dead and inert, worker 1 is untouched. -/
theorem worker_failure_isolated_witness :
    ((systemStep 8 (fun _ => (⟨WorkerStatus.alive, initWorker 0⟩ : Worker Nat))
        (0 : Fin 2) RecvOutcome.failed) 0).status = WorkerStatus.dead
    ∧ (systemStep 8 (fun _ => (⟨WorkerStatus.alive, initWorker 0⟩ : Worker Nat))
        (0 : Fin 2) RecvOutcome.failed) 1
      = (⟨WorkerStatus.alive, initWorker 0⟩ : Worker Nat)
    ∧ workerStep 8 ((systemStep 8 (fun _ => (⟨WorkerStatus.alive, initWorker 0⟩ : Worker Nat))
        (0 : Fin 2) RecvOutcome.failed) 0) RecvOutcome.skipped
      = (systemStep 8 (fun _ => (⟨WorkerStatus.alive, initWorker 0⟩ : Worker Nat))
        (0 : Fin 2) RecvOutcome.failed) 0 :=
  worker_failure_isolated 8 (fun _ => (⟨WorkerStatus.alive, initWorker 0⟩ : Worker Nat))
    (0 : Fin 2) (1 : Fin 2) RecvOutcome.skipped rfl (by decide)

end PropertyDefs
